import Mathlib

/-!
Shallow embedding of the applicant-portal status/payment core:
the applications table and its status-history trigger (supabase/schema.sql),
the Stripe webhook handler branches (the serve handler shipped with the
edge functions), the create-payment-intent edge function, the admin
dashboard bulk release, the reviewer payment-verification action, and the
row-level-security update policies for applicants.

Statuses and processor states are kept as strings, as in the TEXT columns
with CHECK constraints; ids and timestamps are natural numbers; nullable
columns are Options.
-/

namespace Portal

/-- One row of the applications table (schema.sql plus the Stripe
migration columns).  Only the columns touched by the payment/status
logic are carried. -/
structure Application where
  id : Nat
  user_id : Nat
  current_status : String
  first_name : Option String := none
  last_name : Option String := none
  date_of_birth : Option String := none
  high_school : Option String := none
  gpa : Option String := none
  country : Option String := none
  state : Option String := none
  class_year : Option String := none
  payment_verified : Bool := false
  payment_verified_at : Option Nat := none
  payment_verified_by : Option Nat := none
  payment_method : Option String := none
  payment_certification : Option String := none
  applying_for_financial_aid : Option Bool := none
  financial_circumstances_overview : Option String := none
  financial_documentation_consent : Option String := none
  stripe_payment_intent_id : Option String := none
  stripe_session_id : Option String := none
  stripe_payment_status : Option String := none
  decision : Option String := none
  decision_released_at : Option Nat := none
  deriving DecidableEq, Repr

/-- The CHECK constraint on applications.current_status. -/
def validStatus (st : String) : Bool :=
  st == "draft" || st == "submitted" || st == "payment_received" ||
    st == "in_review" || st == "decision_released"

/-- One row of application_status_history (schema.sql): changed_by is
declared UUID NOT NULL REFERENCES profiles(id), so a committed audit
row always carries a real actor. -/
structure HistoryRow where
  application_id : Nat
  old_status : Option String
  new_status : String
  changed_by : Nat
  changed_at : Nat
  deriving DecidableEq, Repr

/-- The mutable store: the applications table plus the append-only
status-history table. -/
structure Store where
  applications : List Application
  history : List HistoryRow
  deriving DecidableEq, Repr

/-- The firing condition of the log_status_change trigger for one
updated row: OLD.current_status IS DISTINCT FROM NEW.current_status. -/
def statusRowChanged (f : Application → Application) (a : Application) : Bool :=
  !(a.current_status == (f a).current_status)

/-- The rows of an UPDATE for which the AFTER UPDATE trigger fires. -/
def firedRows (pred : Application → Bool) (f : Application → Application)
    (l : List Application) : List Application :=
  l.filter (fun a => pred a && statusRowChanged f a)

/-- The audit row the log_status_change trigger inserts for one updated
row, with changed_by := auth.uid(). -/
def log_status_change (uid : Nat) (t : Nat) (oldA newA : Application) : HistoryRow :=
  { application_id := newA.id, old_status := some oldA.current_status
  , new_status := newA.current_status, changed_by := uid, changed_at := t }

/-- A SQL UPDATE against the applications table: every row matching the
WHERE predicate is rewritten by f, and the log_status_change trigger
inserts one audit row per updated row whose current_status changed,
with changed_by := auth.uid().  Under the service-role client used by
the webhook and the edge functions auth.uid() is NULL (actor = none):
if the trigger fires for any row, its INSERT violates the NOT NULL
constraint on changed_by, the exception rolls the whole statement back
and the caller sees an error (none) with nothing updated; a trigger
that never fires lets the statement commit. -/
def updateWhere (actor : Option Nat) (t : Nat) (pred : Application → Bool)
    (f : Application → Application) (s : Store) : Option Store :=
  match actor with
  | some uid =>
      some { applications := s.applications.map (fun a => if pred a then f a else a)
           , history := s.history ++ (firedRows pred f s.applications).map
               (fun a => log_status_change uid t a (f a)) }
  | none =>
      if (firedRows pred f s.applications).isEmpty then
        some { applications := s.applications.map (fun a => if pred a then f a else a)
             , history := s.history }
      else none

/-- supabase .select(...).eq('id', aid).single(): the row with the given id. -/
def findApp (s : Store) (aid : Nat) : Option Application :=
  s.applications.find? (fun a => a.id == aid)

/-- The HTTP outcomes of the stripe-webhook serve handler; error500 is
the handler's 'Failed to update application' branch taken when the
store update reports an error. -/
inductive WebhookResult
  | missingAppId
  | notFound
  | alreadyVerified
  | error500
  | ok
  deriving DecidableEq, Repr

/-- The column writes of the payment_intent.succeeded branch. -/
def succeededFields (intentId : String) (t : Nat) (a : Application) : Application :=
  { a with payment_verified := true
         , payment_verified_at := some t
         , stripe_payment_status := some "succeeded"
         , stripe_payment_intent_id := some intentId
         , current_status := "payment_received" }

/-- The payment_intent.succeeded branch of the stripe-webhook serve
handler: 400 without an applicationId in the metadata, 404 when the row
is absent, a no-op 200 when payment_verified is already true, otherwise
an update keyed only on the id; an update error (in particular the
NULL-actor trigger abort, since the webhook runs as the service role)
answers 500 with nothing mutated. -/
def stripeWebhookSucceeded (intentId : String) (appId : Option Nat)
    (actor : Option Nat) (t : Nat) (s : Store) : Store × WebhookResult :=
  match appId with
  | none => (s, .missingAppId)
  | some aid =>
    match findApp s aid with
    | none => (s, .notFound)
    | some app =>
      if app.payment_verified then
        (s, .alreadyVerified)
      else
        match updateWhere actor t (fun a => a.id == aid)
            (succeededFields intentId t) s with
        | some s1 => (s1, .ok)
        | none => (s, .error500)

/-- The payment_intent.payment_failed branch of the stripe-webhook serve
handler: 400 without an applicationId, 404 when the row is absent,
otherwise it sets stripe_payment_status to 'failed' keyed on the id
(this write never changes current_status, so the trigger stays silent
and the update always commits). -/
def stripeWebhookFailed (appId : Option Nat) (actor : Option Nat) (t : Nat)
    (s : Store) : Store × WebhookResult :=
  match appId with
  | none => (s, .missingAppId)
  | some aid =>
    match findApp s aid with
    | none => (s, .notFound)
    | some _ =>
      match updateWhere actor t (fun a => a.id == aid)
          (fun a => { a with stripe_payment_status := some "failed" }) s with
      | some s1 => (s1, .ok)
      | none => (s, .error500)

/-- The JSX guard on the ApplicationReview Quick Actions panel: the
Verify Payment action is rendered only when the application state
satisfies this predicate. -/
def showVerifyPaymentAction (a : Application) : Bool :=
  a.current_status == "received" && !a.payment_verified

/-- handleVerifyPayment (ApplicationReview.tsx): the reviewer-triggered
update marking an attestation payment verified.  It runs on the
reviewer's authenticated client, so auth.uid() is the reviewer's id and
the audit insert commits; on a store error the page only shows a
message, leaving the store as it was. -/
def handleVerifyPayment (verifier : Nat) (t : Nat) (aid : Nat) (s : Store) : Store :=
  (updateWhere (some verifier) t (fun a => a.id == aid)
    (fun a => { a with payment_verified := true
                     , payment_verified_at := some t
                     , payment_verified_by := some verifier
                     , current_status := "payment_received" }) s).getD s

/-- The releaseAllDecisions client-side filter: applications whose
current_status is in_review and whose decision is non-null. -/
def decisionReady (a : Application) : Bool :=
  a.current_status == "in_review" && a.decision.isSome

/-- What releaseAllDecisions reports: one early-out alert, one aggregate
success alert with a count, or one aggregate failure alert. -/
inductive ReleaseResult
  | noneReady
  | releasedAll (count : Nat)
  | failedAll
  deriving DecidableEq, Repr

/-- releaseAllDecisions (AdminDashboard.tsx): a single conditional UPDATE
(.eq current_status in_review, .not decision is null) moving every ready
application to decision_released, run on the admin's authenticated
client (actor is the admin's non-null auth.uid()); updateOk models
whether that one statement succeeds. -/
def releaseAllDecisions (actor : Nat) (t : Nat) (updateOk : Bool)
    (s : Store) : Store × ReleaseResult :=
  let ready := s.applications.filter decisionReady
  if ready.isEmpty then (s, .noneReady)
  else if updateOk then
    match updateWhere (some actor) t decisionReady
        (fun a => { a with current_status := "decision_released"
                         , decision_released_at := some t }) s with
    | some s1 => (s1, .releasedAll ready.length)
    | none => (s, .failedAll)
  else (s, .failedAll)

/-- The still-usable Stripe intent statuses checked by
create-payment-intent before reusing an existing intent. -/
def usableIntentStatus (st : String) : Bool :=
  st == "requires_payment_method" || st == "requires_confirmation" ||
    st == "requires_action" || st == "processing"

/-- The Stripe collaborator as seen by create-payment-intent:
retrieveStatus models paymentIntents.retrieve (none = the call threw),
retrieveSecret the retrieved intent's client_secret, and the new* fields
the intent that paymentIntents.create would mint. -/
structure StripeEnv where
  retrieveStatus : String → Option String
  retrieveSecret : String → String
  newIntentId : String
  newIntentSecret : String

/-- The HTTP outcomes of the create-payment-intent serve handler.
reusedExisting records whether the clientSecret came from the stored
intent (true) or from a freshly created one (false). -/
inductive IntentResult
  | missingId
  | appNotFound
  | notSubmitted
  | alreadyVerified
  | clientSecret (secret : String) (reusedExisting : Bool)
  deriving DecidableEq, Repr

/-- The existing-intent reuse check of create-payment-intent: only when
the application stores an intent id AND its stored stripe_payment_status
is 'pending' is the intent retrieved; a still-usable retrieved status
yields its client secret, anything else (or a retrieve error) falls
through to creation. -/
def reuseSecret (env : StripeEnv) (a : Application) : Option String :=
  match a.stripe_payment_intent_id with
  | none => none
  | some pid =>
    if a.stripe_payment_status == some "pending" then
      match env.retrieveStatus pid with
      | some st => if usableIntentStatus st then some (env.retrieveSecret pid) else none
      | none => none
    else none

/-- The create-payment-intent serve handler after authentication: 400
without an applicationId, 404 unless the row matches both the id and the
calling user, 400 unless submitted and not yet verified; then either the
reuse path (store untouched) or creation of a new intent whose id
overwrites the stored reference (update keyed on the id). -/
def createPaymentIntent (userId : Nat) (appId : Option Nat) (env : StripeEnv)
    (t : Nat) (s : Store) : Store × IntentResult :=
  match appId with
  | none => (s, .missingId)
  | some aid =>
    match s.applications.find? (fun a => a.id == aid && a.user_id == userId) with
    | none => (s, .appNotFound)
    | some app =>
      if app.current_status != "submitted" then (s, .notSubmitted)
      else if app.payment_verified then (s, .alreadyVerified)
      else
        match reuseSecret env app with
        | some secret => (s, .clientSecret secret true)
        | none =>
          match updateWhere none t (fun a => a.id == aid)
              (fun a => { a with stripe_payment_intent_id := some env.newIntentId
                               , stripe_payment_status := some "pending" }) s with
          | some s1 => (s1, .clientSecret env.newIntentSecret false)
          | none => (s, .clientSecret env.newIntentSecret false)

/-- The guard read of the succeeded branch in isolation: the handler
fetches the row and proceeds only when it exists and payment_verified is
still false. -/
def succeededGuardPasses (aid : Nat) (s : Store) : Bool :=
  match findApp s aid with
  | some app => !app.payment_verified
  | none => false

/-- The mutation of the succeeded branch in isolation: the UPDATE is
keyed only on the id, exactly as the handler issues it (as the
service-role webhook, actor none); when the statement aborts the store
is unchanged. -/
def succeededApply (intentId : String) (t : Nat) (aid : Nat) (s : Store) : Store :=
  (updateWhere none t (fun a => a.id == aid) (succeededFields intentId t) s).getD s

/-- Modelled from the spec: the atomic conditional update
(update ... where payment_verified = false) that section 5 of the spec
describes as the correctness mechanism; the shipped handler has no such
WHERE clause, so this variant exists only to be compared with
succeededApply. -/
def succeededApplyWhereUnverified (intentId : String) (t : Nat) (aid : Nat)
    (s : Store) : Store :=
  (updateWhere none t (fun a => a.id == aid && !a.payment_verified)
    (succeededFields intentId t) s).getD s

/-- Two concurrent deliveries of the same succeeded event, interleaved
read-read-update-update: both guards read the initial store, then the
two (guarded) mutations run in order, each with the given update
semantics.  Returns the final store plus whether each delivery passed
its guard and therefore issued its update. -/
def raceTwoDeliveries (step : String → Nat → Nat → Store → Store)
    (id1 id2 : String) (t1 t2 : Nat) (aid : Nat) (s : Store) :
    Store × Bool × Bool :=
  let g1 := succeededGuardPasses aid s
  let g2 := succeededGuardPasses aid s
  let s1 := if g1 then step id1 t1 aid s else s
  let s2 := if g2 then step id2 t2 aid s1 else s1
  (s2, g1, g2)

/-- The applicants' draft-update RLS policy (schema.sql): its USING
clause; having no WITH CHECK of its own, PostgreSQL applies the same
clause as the implicit check on the new row. -/
def draftUpdateUsing (uid : Nat) (a : Application) : Bool :=
  uid == a.user_id && a.current_status == "draft"

/-- The Stripe migration's policy "Applicants can update own submitted
applications for payment": its USING clause, likewise serving as the
implicit WITH CHECK.  The later security migration tries to replace it
with a column-freezing policy whose WITH CHECK compares OLD and NEW
rows — PostgreSQL rejects OLD/NEW references in row-security policies,
so that CREATE POLICY fails, the migration does not apply, and this
broad policy remains the one in force. -/
def submittedUpdateUsing (uid : Nat) (a : Application) : Bool :=
  uid == a.user_id && a.current_status == "submitted"

/-- PostgreSQL's permissive-policy combination for an applicant UPDATE
rewriting row o to row n: the existing row must satisfy the USING
clause of at least one applicable policy, and the new row must satisfy
the (implicit) WITH CHECK of at least one applicable policy — the two
disjunctions are taken independently. -/
def applicantUpdateAllowed (uid : Nat) (o n : Application) : Bool :=
  (draftUpdateUsing uid o || submittedUpdateUsing uid o) &&
  (draftUpdateUsing uid n || submittedUpdateUsing uid n)

/-- An RLS policy declaration: the table, the name and the SQL command it
grants. -/
structure PolicyDecl where
  table : String
  name : String
  cmd : String
  deriving DecidableEq, Repr

/-- The policies declared on application_status_history in schema.sql:
read access only, no INSERT, UPDATE or DELETE policy exists, so client
roles cannot mutate or delete audit rows. -/
def statusHistoryPolicies : List PolicyDecl :=
  [ { table := "application_status_history"
    , name := "Applicants can view own status history", cmd := "SELECT" }
  , { table := "application_status_history"
    , name := "Admins and reviewers can view status history", cmd := "SELECT" } ]

/-- The payment-path operations named by the spec's monotonicity claim:
the two webhook branches and payment-intent creation. -/
inductive PaymentPathOp
  | wSucceeded (intentId : String) (appId : Option Nat) (t : Nat)
  | wFailed (appId : Option Nat) (t : Nat)
  | intent (userId : Nat) (appId : Option Nat) (env : StripeEnv) (t : Nat)

/-- Run one payment-path operation for its store effect. -/
def applyPaymentPathOp (op : PaymentPathOp) (s : Store) : Store :=
  match op with
  | .wSucceeded pid aid t => (stripeWebhookSucceeded pid aid none t s).1
  | .wFailed aid t => (stripeWebhookFailed aid none t s).1
  | .intent uid aid env t => (createPaymentIntent uid aid env t s).1

/-- Run a sequence of payment-path operations. -/
def runPaymentPath (ops : List PaymentPathOp) (s : Store) : Store :=
  ops.foldl (fun st op => applyPaymentPathOp op st) s

/-- Every application with the given id is payment-verified. -/
def verifiedIn (s : Store) (aid : Nat) : Bool :=
  s.applications.all (fun a => !(a.id == aid) || a.payment_verified)

/-! Concrete fixtures used by witnesses and counterexamples. -/

/-- A draft application owned by user 2. -/
def sampleDraft : Application :=
  { id := 1, user_id := 2, current_status := "draft" }

/-- A submitted, not yet verified application owned by user 2. -/
def sampleSubmitted : Application :=
  { id := 1, user_id := 2, current_status := "submitted" }

/-- An application already at payment_received with payment_verified
still false (reachable through the admin status dropdown). -/
def samplePRUnverified : Application :=
  { id := 1, user_id := 2, current_status := "payment_received" }

/-- An unverified application at decision_released (admin override). -/
def sampleReleasedUnverified : Application :=
  { id := 1, user_id := 2, current_status := "decision_released" }

/-- A payment-verified application. -/
def sampleVerified : Application :=
  { id := 1, user_id := 2, current_status := "payment_received"
  , payment_verified := true, payment_verified_at := some 4
  , stripe_payment_status := some "succeeded" }

/-- An in_review application with a recorded accept decision. -/
def sampleInReviewAccepted : Application :=
  { id := 1, user_id := 2, current_status := "in_review", decision := some "accepted" }

/-- An in_review application with a recorded reject decision. -/
def sampleInReviewRejected : Application :=
  { id := 2, user_id := 3, current_status := "in_review", decision := some "rejected" }

/-- A submitted application storing an intent reference whose stored
processor status is failed. -/
def sampleFailedStored : Application :=
  { sampleSubmitted with
      stripe_payment_intent_id := some "pi_old",
      stripe_payment_status := some "failed" }

/-- A submitted application storing an intent reference whose stored
processor status is pending. -/
def samplePendingStored : Application :=
  { sampleSubmitted with
      stripe_payment_intent_id := some "pi_old",
      stripe_payment_status := some "pending" }

/-- A Stripe collaborator whose stored intent is still in a usable state. -/
def sampleEnvUsable : StripeEnv :=
  { retrieveStatus := fun _ => some "requires_payment_method"
  , retrieveSecret := fun _ => "sec_old"
  , newIntentId := "pi_new", newIntentSecret := "sec_new" }

/-- A payment-path run exercising all three operations. -/
def samplePathOps : List PaymentPathOp :=
  [ .wFailed (some 1) 5
  , .wSucceeded "pi_X" (some 1) 6
  , .intent 2 (some 1) sampleEnvUsable 7 ]

section ListHelpers

variable {α β : Type}

/-- Filtering by a conjunction filters by each conjunct in turn. -/
theorem filter_and_eq (p q : α → Bool) (l : List α) :
    l.filter (fun x => p x && q x) = (l.filter p).filter q := by
  induction l with
  | nil => rfl
  | cons x xs ih =>
    by_cases hp : p x <;> by_cases hq : q x <;>
      simp [List.filter_cons, hp, hq, ih]

/-- When the filter by p is the singleton [a] and q is at least as strong
as p yet holds at a, find? q returns a. -/
theorem find?_eq_of_filter_eq_singleton (p q : α → Bool) (a : α)
    (hpq : ∀ x, q x = true → p x = true) (hq : q a = true) :
    ∀ l : List α, l.filter p = [a] → l.find? q = some a := by
  intro l
  induction l with
  | nil => intro h; simp [List.filter] at h
  | cons x xs ih =>
    intro h
    by_cases hqx : q x
    · have hpx : p x = true := hpq x hqx
      rw [List.filter_cons_of_pos hpx] at h
      have hxa : x = a := (List.cons_eq_cons.mp h).1
      subst hxa
      simp [List.find?, hq]
    · by_cases hpx : p x
      · rw [List.filter_cons_of_pos hpx] at h
        have hxa : x = a := (List.cons_eq_cons.mp h).1
        rw [hxa] at hqx
        exact absurd hq hqx
      · rw [List.filter_cons_of_neg (by simpa using hpx)] at h
        simp [List.find?, hqx]
        exact ih h

/-- find? with the filter's own predicate on a singleton filter. -/
theorem find?_self_of_filter_eq_singleton (p : α → Bool) (a : α)
    (l : List α) (h : l.filter p = [a]) (ha : p a = true) :
    l.find? p = some a :=
  find?_eq_of_filter_eq_singleton p p a (fun _ hx => hx) ha l h

/-- p a holds whenever the filter by p is the singleton [a]. -/
theorem pred_of_filter_eq_singleton (p : α → Bool) (a : α) :
    ∀ l : List α, l.filter p = [a] → p a = true := by
  intro l
  induction l with
  | nil => intro h; simp [List.filter] at h
  | cons x xs ih =>
    intro h
    by_cases hpx : p x
    · rw [List.filter_cons_of_pos hpx] at h
      have hxa : x = a := (List.cons_eq_cons.mp h).1
      rw [hxa] at hpx; exact hpx
    · rw [List.filter_cons_of_neg (by simpa using hpx)] at h
      exact ih h

/-- Filtering by p after a q-guarded rewrite whose rewriter leaves p
untouched equals rewriting the p-filtered rows. -/
theorem filter_of_guarded_map (p q : α → Bool) (f : α → α)
    (hpf : ∀ x, p (f x) = p x) (l : List α) :
    (l.map (fun x => if q x then f x else x)).filter p =
      (l.filter p).map (fun x => if q x then f x else x) := by
  rw [List.filter_map]
  congr 1
  apply List.filter_congr
  intro x _
  by_cases hq : q x <;> simp [Function.comp, hq, hpf]

/-- find? misses when the filter is empty. -/
theorem find?_eq_none_of_filter_eq_nil (p : α → Bool) (l : List α)
    (h : l.filter p = []) : l.find? p = none := by
  rw [List.find?_eq_none]
  intro x hx
  simp [List.filter_eq_nil_iff.mp h x hx]

end ListHelpers

/-- firedRows is the WHERE-filtered rows restricted to those whose
status changes. -/
theorem firedRows_eq (pred : Application → Bool) (f : Application → Application)
    (l : List Application) :
    firedRows pred f l = (l.filter pred).filter (statusRowChanged f) := by
  rw [firedRows, filter_and_eq]

/-- A rewriter that never touches current_status never fires the
trigger. -/
theorem firedRows_nil_of_no_change (pred : Application → Bool)
    (f : Application → Application)
    (hf : ∀ x, (f x).current_status = x.current_status)
    (l : List Application) : firedRows pred f l = [] := by
  rw [firedRows_eq]
  apply List.filter_eq_nil_iff.mpr
  intro a _
  simp [statusRowChanged, hf a]

/-- An UPDATE that never changes current_status commits for any caller
(the trigger stays silent) and appends no history row. -/
theorem updateWhere_commits_of_no_change (actor : Option Nat) (t : Nat)
    (pred : Application → Bool) (f : Application → Application) (s : Store)
    (hf : ∀ x, (f x).current_status = x.current_status) :
    updateWhere actor t pred f s =
      some { applications := s.applications.map (fun a => if pred a then f a else a)
           , history := s.history } := by
  cases actor with
  | some uid => simp [updateWhere, firedRows_nil_of_no_change pred f hf]
  | none => simp [updateWhere, firedRows_nil_of_no_change pred f hf]

/-- With a single matched row, the trigger fires exactly when that
row's status changes. -/
theorem firedRows_of_filter_singleton (pred : Application → Bool)
    (f : Application → Application) (l : List Application) (a : Application)
    (hfil : l.filter pred = [a]) :
    firedRows pred f l = if statusRowChanged f a then [a] else [] := by
  rw [firedRows_eq, hfil]
  by_cases h : statusRowChanged f a <;> simp [List.filter, h]

/-- A service-role (NULL-actor) UPDATE whose single matched row changes
status aborts on the changed_by NOT NULL constraint. -/
theorem updateWhere_none_aborts (t : Nat) (pred : Application → Bool)
    (f : Application → Application) (s : Store) (a : Application)
    (hfil : s.applications.filter pred = [a])
    (hch : statusRowChanged f a = true) :
    updateWhere none t pred f s = none := by
  have hfired : firedRows pred f s.applications = [a] := by
    rw [firedRows_of_filter_singleton pred f s.applications a hfil]
    simp [hch]
  simp [updateWhere, hfired]

/-- A service-role UPDATE whose single matched row keeps its status
commits silently. -/
theorem updateWhere_none_commits_unchanged (t : Nat) (pred : Application → Bool)
    (f : Application → Application) (s : Store) (a : Application)
    (hfil : s.applications.filter pred = [a])
    (hch : statusRowChanged f a = false) :
    updateWhere none t pred f s =
      some { applications := s.applications.map (fun x => if pred x then f x else x)
           , history := s.history } := by
  have hfired : firedRows pred f s.applications = [] := by
    rw [firedRows_of_filter_singleton pred f s.applications a hfil]
    simp [hch]
  simp [updateWhere, hfired]

/-- A service-role UPDATE matching no row commits (and changes
nothing). -/
theorem updateWhere_none_commits_of_filter_nil (t : Nat)
    (pred : Application → Bool) (f : Application → Application) (s : Store)
    (hfil : s.applications.filter pred = []) :
    updateWhere none t pred f s =
      some { applications := s.applications.map (fun x => if pred x then f x else x)
           , history := s.history } := by
  have hfired : firedRows pred f s.applications = [] := by
    rw [firedRows_eq, hfil]
    rfl
  simp [updateWhere, hfired]

/-- After a q-guarded rewrite whose rewriter keeps the id, the row with
a given id is the old row rewritten when q matched it and the old row
otherwise. -/
theorem filter_guarded_update_singleton (aid : Nat) (q : Application → Bool)
    (f : Application → Application) (hf : ∀ x, (f x).id = x.id)
    (l : List Application) (a : Application)
    (hfil : l.filter (fun x => x.id == aid) = [a]) :
    (l.map (fun x => if q x then f x else x)).filter (fun x => x.id == aid) =
      [if q a then f a else a] := by
  rw [filter_of_guarded_map (fun x => x.id == aid) q f
    (fun x => by simp [hf x]), hfil]
  rfl

/-- The succeeded branch is a no-op success whenever the row it reads
is already payment-verified. -/
theorem stripeWebhookSucceeded_already (intentId : String) (aid : Nat)
    (actor : Option Nat) (t : Nat) (s : Store) (app : Application)
    (hfind : findApp s aid = some app) (hv : app.payment_verified = true) :
    stripeWebhookSucceeded intentId (some aid) actor t s = (s, .alreadyVerified) := by
  simp [stripeWebhookSucceeded, hfind, hv]

/-- C5: the Verify Payment quick action of the review page compares
current_status against the value received, which the schema's CHECK
constraint on applications.current_status excludes; hence for every
schema-valid application — in particular a submitted, unverified one,
from which the spec's submitted → payment_received manual-verification
transition is supposed to start — the action is never rendered and the
reviewer can never trigger it. -/
theorem verify_payment_guard_unreachable (a : Application)
    (h : validStatus a.current_status = true) :
    showVerifyPaymentAction a = false := by
  by_cases hr : a.current_status = "received"
  · rw [hr] at h
    exact absurd h (by decide)
  · simp [showVerifyPaymentAction, hr]

theorem verify_payment_guard_unreachable_witness :
    validStatus sampleSubmitted.current_status = true ∧
    showVerifyPaymentAction sampleSubmitted = false :=
  ⟨by decide, verify_payment_guard_unreachable sampleSubmitted (by decide)⟩

/-- C10, counterexample: a validly dispatched succeeded event for an
unverified application at decision_released does not move it to
payment_received — the status-changing update fires the audit trigger
with the webhook's NULL service-role auth.uid(), violates the NOT NULL
changed_by column and aborts, so the handler answers 500 and the store
is unchanged. -/
theorem succeeded_moves_any_status_cex :
    samplePRUnverified.payment_verified = false ∧
    sampleReleasedUnverified.payment_verified = false ∧
    sampleReleasedUnverified.current_status = "decision_released" ∧
    stripeWebhookSucceeded "pi_W" (some 1) none 9 ⟨[sampleReleasedUnverified], []⟩ =
      (⟨[sampleReleasedUnverified], []⟩, .error500) :=
  ⟨rfl, rfl, rfl, rfl⟩

/-- C10, amended: the succeeded branch indeed reads only existence and
payment_verified, never current_status, and issues the payment_received
rewrite for any status; but the rewrite commits only when it does not
change current_status — i.e. when the application is already at
payment_received — because for any other status the trigger's insert of
the NULL service-role actor into the NOT NULL changed_by column aborts
the update: the handler answers 500 and the application is not moved. -/
theorem succeeded_ignores_current_status_amended
    (intentId : String) (aid t : Nat) (s : Store) (a : Application)
    (hfil : s.applications.filter (fun x => x.id == aid) = [a])
    (hver : a.payment_verified = false) :
    (a.current_status = "payment_received" →
      (stripeWebhookSucceeded intentId (some aid) none t s).2 = .ok ∧
      (stripeWebhookSucceeded intentId (some aid) none t s).1.applications.filter
        (fun x => x.id == aid) = [succeededFields intentId t a] ∧
      (succeededFields intentId t a).payment_verified = true) ∧
    (a.current_status ≠ "payment_received" →
      stripeWebhookSucceeded intentId (some aid) none t s = (s, .error500)) := by
  have ha : (fun x : Application => x.id == aid) a = true :=
    pred_of_filter_eq_singleton _ a s.applications hfil
  have haid : a.id = aid := by simpa using ha
  have hfind : findApp s aid = some a :=
    find?_self_of_filter_eq_singleton _ a s.applications hfil ha
  constructor
  · intro hpr
    have hch : statusRowChanged (succeededFields intentId t) a = false := by
      simp [statusRowChanged, succeededFields, hpr]
    have hup := updateWhere_none_commits_unchanged t (fun x => x.id == aid)
      (succeededFields intentId t) s a hfil hch
    have hred : stripeWebhookSucceeded intentId (some aid) none t s =
        (⟨s.applications.map (fun x => if (x.id == aid) then
          succeededFields intentId t x else x), s.history⟩, .ok) := by
      simp [stripeWebhookSucceeded, hfind, hver, hup]
    refine ⟨by rw [hred], ?_, rfl⟩
    rw [hred]
    show (s.applications.map (fun x => if (x.id == aid) then
      succeededFields intentId t x else x)).filter (fun x => x.id == aid) = _
    rw [filter_guarded_update_singleton aid (fun x => x.id == aid)
      (succeededFields intentId t) (fun x => rfl) s.applications a hfil]
    simp [haid]
  · intro hpr
    have hch : statusRowChanged (succeededFields intentId t) a = true := by
      simp [statusRowChanged, succeededFields, hpr]
    have hup := updateWhere_none_aborts t (fun x => x.id == aid)
      (succeededFields intentId t) s a hfil hch
    simp [stripeWebhookSucceeded, hfind, hver, hup]

theorem succeeded_ignores_current_status_witness :
    (stripeWebhookSucceeded "pi_W" (some 1) none 9
        ⟨[samplePRUnverified], []⟩).2 = .ok ∧
    (stripeWebhookSucceeded "pi_W" (some 1) none 9
        ⟨[samplePRUnverified], []⟩).1.applications.filter
      (fun x => x.id == 1) = [succeededFields "pi_W" 9 samplePRUnverified] ∧
    (succeededFields "pi_W" 9 samplePRUnverified).payment_verified = true :=
  (succeeded_ignores_current_status_amended "pi_W" 1 9
    ⟨[samplePRUnverified], []⟩ samplePRUnverified (by rfl) (by rfl)).1 (by rfl)

/-- C3, counterexample: a payment_intent.payment_failed event for an
application that is already payment-verified still mutates the row — the
branch only checks existence, so stripe_payment_status flips from
succeeded to failed on a verified application, contradicting the claim
that the mutation happens only when not already verified. -/
theorem failed_branch_mutates_verified_cex :
    sampleVerified.payment_verified = true ∧
    (stripeWebhookFailed (some 1) none 7 ⟨[sampleVerified], []⟩).1.applications =
      [{ sampleVerified with stripe_payment_status := some "failed" }] ∧
    (stripeWebhookFailed (some 1) none 7 ⟨[sampleVerified], []⟩).1 ≠
      ⟨[sampleVerified], []⟩ := by
  refine ⟨rfl, rfl, ?_⟩
  decide

/-- C3, amended: on payment_intent.payment_failed the handler sets
stripe_payment_status to failed while leaving payment_verified and
current_status (and the history) unchanged, and it mutates only when the
application is found — but regardless of whether payment is already
verified. -/
theorem failed_branch_sets_failed_amended
    (aid : Nat) (actor : Option Nat) (t : Nat) (s : Store) (a : Application)
    (hfil : s.applications.filter (fun x => x.id == aid) = [a]) :
    (stripeWebhookFailed (some aid) actor t s).2 = .ok ∧
    (stripeWebhookFailed (some aid) actor t s).1.applications =
      s.applications.map (fun x => if x.id == aid then
        { x with stripe_payment_status := some "failed" } else x) ∧
    (stripeWebhookFailed (some aid) actor t s).1.history = s.history ∧
    (∀ x ∈ (stripeWebhookFailed (some aid) actor t s).1.applications,
      ∃ y ∈ s.applications, x.payment_verified = y.payment_verified ∧
        x.current_status = y.current_status) ∧
    (∀ s2 : Store, s2.applications.filter (fun x => x.id == aid) = [] →
      stripeWebhookFailed (some aid) actor t s2 = (s2, .notFound)) := by
  have ha : (fun x : Application => x.id == aid) a = true :=
    pred_of_filter_eq_singleton _ a s.applications hfil
  have hfind : findApp s aid = some a :=
    find?_self_of_filter_eq_singleton _ a s.applications hfil ha
  have hup := updateWhere_commits_of_no_change actor t (fun x => x.id == aid)
    (fun x => { x with stripe_payment_status := some "failed" }) s (fun x => rfl)
  have hred : stripeWebhookFailed (some aid) actor t s =
      (⟨s.applications.map (fun x => if (x.id == aid) then
        { x with stripe_payment_status := some "failed" } else x), s.history⟩, .ok) := by
    simp [stripeWebhookFailed, hfind, hup]
  refine ⟨by rw [hred], by rw [hred], by rw [hred], ?_, ?_⟩
  · rw [hred]
    intro x hx
    show ∃ y ∈ s.applications, _
    have hx' : x ∈ s.applications.map (fun x => if (x.id == aid) then
        { x with stripe_payment_status := some "failed" } else x) := hx
    rw [List.mem_map] at hx'
    obtain ⟨y, hy, hxy⟩ := hx'
    refine ⟨y, hy, ?_⟩
    by_cases hp : (y.id == aid) = true
    · rw [if_pos hp] at hxy
      rw [← hxy]
      exact ⟨rfl, rfl⟩
    · rw [if_neg hp] at hxy
      rw [← hxy]
      exact ⟨rfl, rfl⟩
  · intro s2 h2
    have hnone : findApp s2 aid = none :=
      find?_eq_none_of_filter_eq_nil _ _ h2
    simp [stripeWebhookFailed, hnone]

theorem failed_branch_sets_failed_witness :
    (stripeWebhookFailed (some 1) none 7 ⟨[sampleVerified], []⟩).2 = .ok ∧
    (stripeWebhookFailed (some 1) none 7 ⟨[sampleVerified], []⟩).1.applications =
      [sampleVerified].map (fun x => if x.id == 1 then
        { x with stripe_payment_status := some "failed" } else x) ∧
    (stripeWebhookFailed (some 1) none 7 ⟨[sampleVerified], []⟩).1.history = [] ∧
    (∀ x ∈ (stripeWebhookFailed (some 1) none 7 ⟨[sampleVerified], []⟩).1.applications,
      ∃ y ∈ [sampleVerified], x.payment_verified = y.payment_verified ∧
        x.current_status = y.current_status) ∧
    (∀ s2 : Store, s2.applications.filter (fun x => x.id == 1) = [] →
      stripeWebhookFailed (some 1) none 7 s2 = (s2, .notFound)) :=
  failed_branch_sets_failed_amended 1 none 7 ⟨[sampleVerified], []⟩ sampleVerified (by rfl)

/-- C1, counterexample: delivering the same succeeded event twice never
yields exactly one status-history row.  On an unverified application
already at payment_received (reachable through the admin dropdown) the
two deliveries commit-then-no-op but the trigger never fires, so zero
rows; on a submitted application the first delivery's status change
fires the trigger with the webhook's NULL service-role actor, violates
the NOT NULL changed_by and aborts — the delivery answers 500, the
application stays unverified and the redelivery fails the same way
instead of returning a no-op success. -/
theorem webhook_redelivery_single_history_row_cex :
    samplePRUnverified.payment_verified = false ∧
    (stripeWebhookSucceeded "pi_X" (some 1) none 11
        (stripeWebhookSucceeded "pi_X" (some 1) none 10
          ⟨[samplePRUnverified], []⟩).1).2 = .alreadyVerified ∧
    (stripeWebhookSucceeded "pi_X" (some 1) none 11
        (stripeWebhookSucceeded "pi_X" (some 1) none 10
          ⟨[samplePRUnverified], []⟩).1).1.history = [] ∧
    stripeWebhookSucceeded "pi_X" (some 1) none 10 ⟨[sampleSubmitted], []⟩ =
      (⟨[sampleSubmitted], []⟩, .error500) ∧
    (stripeWebhookSucceeded "pi_X" (some 1) none 11
        (stripeWebhookSucceeded "pi_X" (some 1) none 10
          ⟨[sampleSubmitted], []⟩).1).2 = .error500 := by
  refine ⟨rfl, rfl, rfl, rfl, rfl⟩

/-- C1, amended: the succeeded branch checks payment_verified before
mutating, but idempotent redelivery only materialises when the first
delivery commits — which, under the service-role webhook whose
auth.uid() is NULL, happens exactly when the update does not change
current_status.  For an unverified application already at
payment_received the first delivery verifies and answers ok, the
redelivery is a pure no-op answered with the already-verified body, and
no history row is appended; for any other starting status the
status-changing update fires the trigger, violates the NOT NULL
changed_by constraint and aborts, so both deliveries answer 500 with
the store untouched.  In neither case does the pair of deliveries
produce exactly one history row. -/
theorem webhook_redelivery_idempotent_amended
    (id1 id2 : String) (aid t1 t2 : Nat) (s : Store) (a : Application)
    (hfil : s.applications.filter (fun x => x.id == aid) = [a])
    (hver : a.payment_verified = false) :
    (a.current_status = "payment_received" →
      (stripeWebhookSucceeded id1 (some aid) none t1 s).2 = .ok ∧
      (stripeWebhookSucceeded id2 (some aid) none t2
          (stripeWebhookSucceeded id1 (some aid) none t1 s).1).1 =
        (stripeWebhookSucceeded id1 (some aid) none t1 s).1 ∧
      (stripeWebhookSucceeded id2 (some aid) none t2
          (stripeWebhookSucceeded id1 (some aid) none t1 s).1).2 = .alreadyVerified ∧
      verifiedIn (stripeWebhookSucceeded id2 (some aid) none t2
          (stripeWebhookSucceeded id1 (some aid) none t1 s).1).1 aid = true ∧
      (stripeWebhookSucceeded id2 (some aid) none t2
          (stripeWebhookSucceeded id1 (some aid) none t1 s).1).1.history = s.history) ∧
    (a.current_status ≠ "payment_received" →
      stripeWebhookSucceeded id1 (some aid) none t1 s = (s, .error500) ∧
      stripeWebhookSucceeded id2 (some aid) none t2
          (stripeWebhookSucceeded id1 (some aid) none t1 s).1 = (s, .error500)) := by
  have ha : (fun x : Application => x.id == aid) a = true :=
    pred_of_filter_eq_singleton _ a s.applications hfil
  have haid : a.id = aid := by simpa using ha
  have hfind : findApp s aid = some a :=
    find?_self_of_filter_eq_singleton _ a s.applications hfil ha
  constructor
  · intro hpr
    have hch : statusRowChanged (succeededFields id1 t1) a = false := by
      simp [statusRowChanged, succeededFields, hpr]
    have hup1 := updateWhere_none_commits_unchanged t1 (fun x => x.id == aid)
      (succeededFields id1 t1) s a hfil hch
    have hred1 : stripeWebhookSucceeded id1 (some aid) none t1 s =
        (⟨s.applications.map (fun x => if (x.id == aid) then
          succeededFields id1 t1 x else x), s.history⟩, .ok) := by
      simp [stripeWebhookSucceeded, hfind, hver, hup1]
    have hfil1 : (s.applications.map (fun x => if (x.id == aid) then
        succeededFields id1 t1 x else x)).filter (fun x => x.id == aid) =
        [succeededFields id1 t1 a] := by
      rw [filter_guarded_update_singleton aid (fun x => x.id == aid)
        (succeededFields id1 t1) (fun x => rfl) s.applications a hfil]
      simp [haid]
    have hfind1 : findApp (⟨s.applications.map (fun x => if (x.id == aid) then
        succeededFields id1 t1 x else x), s.history⟩ : Store) aid =
        some (succeededFields id1 t1 a) :=
      find?_self_of_filter_eq_singleton _ _ _ hfil1 (by simpa using haid)
    have hred2 : stripeWebhookSucceeded id2 (some aid) none t2
        (⟨s.applications.map (fun x => if (x.id == aid) then
          succeededFields id1 t1 x else x), s.history⟩ : Store) =
        (⟨s.applications.map (fun x => if (x.id == aid) then
          succeededFields id1 t1 x else x), s.history⟩, .alreadyVerified) :=
      stripeWebhookSucceeded_already id2 aid none t2 _ (succeededFields id1 t1 a)
        hfind1 rfl
    refine ⟨by rw [hred1], ?_, ?_, ?_, ?_⟩
    · rw [hred1, hred2]
    · rw [hred1, hred2]
    · rw [hred1, hred2]
      show (s.applications.map (fun x => if (x.id == aid) then
        succeededFields id1 t1 x else x)).all
          (fun x => !(x.id == aid) || x.payment_verified) = true
      rw [List.all_map, List.all_eq_true]
      intro x _
      by_cases hp : (x.id == aid) = true
      · simp [Function.comp, hp, succeededFields]
      · simp [Function.comp, hp]
    · rw [hred1, hred2]
  · intro hpr
    have hch1 : statusRowChanged (succeededFields id1 t1) a = true := by
      simp [statusRowChanged, succeededFields, hpr]
    have hup1 := updateWhere_none_aborts t1 (fun x => x.id == aid)
      (succeededFields id1 t1) s a hfil hch1
    have hred1 : stripeWebhookSucceeded id1 (some aid) none t1 s = (s, .error500) := by
      simp [stripeWebhookSucceeded, hfind, hver, hup1]
    refine ⟨hred1, ?_⟩
    rw [hred1]
    have hch2 : statusRowChanged (succeededFields id2 t2) a = true := by
      simp [statusRowChanged, succeededFields, hpr]
    have hup2 := updateWhere_none_aborts t2 (fun x => x.id == aid)
      (succeededFields id2 t2) s a hfil hch2
    simp [stripeWebhookSucceeded, hfind, hver, hup2]

theorem webhook_redelivery_idempotent_witness :
    (stripeWebhookSucceeded "pi_A" (some 1) none 10 ⟨[samplePRUnverified], []⟩).2 = .ok ∧
    (stripeWebhookSucceeded "pi_B" (some 1) none 11
        (stripeWebhookSucceeded "pi_A" (some 1) none 10
          ⟨[samplePRUnverified], []⟩).1).1 =
      (stripeWebhookSucceeded "pi_A" (some 1) none 10 ⟨[samplePRUnverified], []⟩).1 ∧
    (stripeWebhookSucceeded "pi_B" (some 1) none 11
        (stripeWebhookSucceeded "pi_A" (some 1) none 10
          ⟨[samplePRUnverified], []⟩).1).2 = .alreadyVerified ∧
    verifiedIn (stripeWebhookSucceeded "pi_B" (some 1) none 11
        (stripeWebhookSucceeded "pi_A" (some 1) none 10
          ⟨[samplePRUnverified], []⟩).1).1 1 = true ∧
    (stripeWebhookSucceeded "pi_B" (some 1) none 11
        (stripeWebhookSucceeded "pi_A" (some 1) none 10
          ⟨[samplePRUnverified], []⟩).1).1.history = ([] : List HistoryRow) :=
  (webhook_redelivery_idempotent_amended "pi_A" "pi_B" 1 10 11
    ⟨[samplePRUnverified], []⟩ samplePRUnverified (by rfl) (by rfl)).1 (by rfl)

/-- C2, counterexample: the handler's already-verified guard is a
separate read followed by an update whose WHERE clause matches on the id
alone, so for an unverified application already at payment_received —
where the update changes no status and therefore commits even for the
NULL-actor service role — the read-read-update-update interleaving of
two deliveries lets both guards pass and both updates apply: the
surviving row carries the second delivery's intent id and verification
timestamp. -/
theorem race_both_apply_cex :
    samplePRUnverified.payment_verified = false ∧
    (raceTwoDeliveries succeededApply "pi_A" "pi_B" 1 2 1
        ⟨[samplePRUnverified], []⟩).2.1 = true ∧
    (raceTwoDeliveries succeededApply "pi_A" "pi_B" 1 2 1
        ⟨[samplePRUnverified], []⟩).2.2 = true ∧
    (raceTwoDeliveries succeededApply "pi_A" "pi_B" 1 2 1
        ⟨[samplePRUnverified], []⟩).1.applications.map
      (fun x => x.stripe_payment_intent_id) = [some "pi_B"] ∧
    (raceTwoDeliveries succeededApply "pi_A" "pi_B" 1 2 1
        ⟨[samplePRUnverified], []⟩).1.applications.map
      (fun x => x.payment_verified_at) = [some 2] :=
  ⟨rfl, rfl, rfl, rfl, rfl⟩

/-- C2, amended: the duplicate-payment protection is read-then-check
only — the UPDATE of the succeeded branch is keyed on the id with no
payment_verified condition.  When the racing updates would change
current_status, both abort on the NULL-actor trigger insert (neither
applies — an accident of the NOT NULL constraint, not of any
conditional WHERE); but for an unverified application already at
payment_received both updates commit, both deliveries apply the effect
under the read-read-update-update interleaving (the row ends as the
second rewrite of the first rewrite), whereas the spec's atomic
conditional update (WHERE payment_verified = false) would let only the
first write land. -/
theorem race_read_then_check_amended
    (id1 id2 : String) (t1 t2 aid : Nat) (s : Store) (a : Application)
    (hfil : s.applications.filter (fun x => x.id == aid) = [a])
    (hver : a.payment_verified = false) :
    (a.current_status = "payment_received" →
      (raceTwoDeliveries succeededApply id1 id2 t1 t2 aid s).2.1 = true ∧
      (raceTwoDeliveries succeededApply id1 id2 t1 t2 aid s).2.2 = true ∧
      (raceTwoDeliveries succeededApply id1 id2 t1 t2 aid
          s).1.applications.filter (fun x => x.id == aid) =
        [succeededFields id2 t2 (succeededFields id1 t1 a)] ∧
      (raceTwoDeliveries succeededApplyWhereUnverified id1 id2 t1 t2 aid
          s).1.applications.filter (fun x => x.id == aid) =
        [succeededFields id1 t1 a]) ∧
    (a.current_status ≠ "payment_received" →
      (raceTwoDeliveries succeededApply id1 id2 t1 t2 aid s).1 = s) := by
  have ha : (fun x : Application => x.id == aid) a = true :=
    pred_of_filter_eq_singleton _ a s.applications hfil
  have haid : a.id = aid := by simpa using ha
  have hfind : findApp s aid = some a :=
    find?_self_of_filter_eq_singleton _ a s.applications hfil ha
  have hg : succeededGuardPasses aid s = true := by
    simp [succeededGuardPasses, hfind, hver]
  have hrace : raceTwoDeliveries succeededApply id1 id2 t1 t2 aid s =
      (succeededApply id2 t2 aid (succeededApply id1 t1 aid s), true, true) := by
    simp [raceTwoDeliveries, hg]
  have hraceC : raceTwoDeliveries succeededApplyWhereUnverified id1 id2 t1 t2 aid s =
      (succeededApplyWhereUnverified id2 t2 aid
        (succeededApplyWhereUnverified id1 t1 aid s), true, true) := by
    simp [raceTwoDeliveries, hg]
  constructor
  · intro hpr
    have hch1 : statusRowChanged (succeededFields id1 t1) a = false := by
      simp [statusRowChanged, succeededFields, hpr]
    have hup1 := updateWhere_none_commits_unchanged t1 (fun x => x.id == aid)
      (succeededFields id1 t1) s a hfil hch1
    have happ1 : succeededApply id1 t1 aid s =
        ⟨s.applications.map (fun x => if (x.id == aid) then
          succeededFields id1 t1 x else x), s.history⟩ := by
      show (updateWhere none t1 (fun x => x.id == aid)
        (succeededFields id1 t1) s).getD s = _
      rw [hup1]
      rfl
    have hfil1 : (s.applications.map (fun x => if (x.id == aid) then
        succeededFields id1 t1 x else x)).filter (fun x => x.id == aid) =
        [succeededFields id1 t1 a] := by
      rw [filter_guarded_update_singleton aid (fun x => x.id == aid)
        (succeededFields id1 t1) (fun x => rfl) s.applications a hfil]
      simp [haid]
    have hch2 : statusRowChanged (succeededFields id2 t2)
        (succeededFields id1 t1 a) = false := by
      simp [statusRowChanged, succeededFields]
    have hup2 := updateWhere_none_commits_unchanged t2 (fun x => x.id == aid)
      (succeededFields id2 t2)
      (⟨s.applications.map (fun x => if (x.id == aid) then
        succeededFields id1 t1 x else x), s.history⟩ : Store)
      (succeededFields id1 t1 a) hfil1 hch2
    have happ2 : succeededApply id2 t2 aid
        (⟨s.applications.map (fun x => if (x.id == aid) then
          succeededFields id1 t1 x else x), s.history⟩ : Store) =
        ⟨(s.applications.map (fun x => if (x.id == aid) then
            succeededFields id1 t1 x else x)).map
          (fun x => if (x.id == aid) then succeededFields id2 t2 x else x),
         s.history⟩ := by
      show (updateWhere none t2 (fun x => x.id == aid) (succeededFields id2 t2)
        (⟨s.applications.map (fun x => if (x.id == aid) then
          succeededFields id1 t1 x else x), s.history⟩ : Store)).getD
        (⟨s.applications.map (fun x => if (x.id == aid) then
          succeededFields id1 t1 x else x), s.history⟩ : Store) = _
      rw [hup2]
      rfl
    have hfil2 : ((s.applications.map (fun x => if (x.id == aid) then
        succeededFields id1 t1 x else x)).map
          (fun x => if (x.id == aid) then succeededFields id2 t2 x else x)).filter
        (fun x => x.id == aid) =
        [succeededFields id2 t2 (succeededFields id1 t1 a)] := by
      rw [filter_guarded_update_singleton aid (fun x => x.id == aid)
        (succeededFields id2 t2) (fun x => rfl) _ (succeededFields id1 t1 a) hfil1]
      simp [succeededFields, haid]
    have hfilq : s.applications.filter
        (fun x => x.id == aid && !x.payment_verified) = [a] := by
      have h := filter_and_eq (fun x : Application => x.id == aid)
        (fun x : Application => !x.payment_verified) s.applications
      rw [hfil] at h
      exact h.trans (by simp [List.filter, hver])
    have hup1q := updateWhere_none_commits_unchanged t1
      (fun x => x.id == aid && !x.payment_verified)
      (succeededFields id1 t1) s a hfilq hch1
    have happ1q : succeededApplyWhereUnverified id1 t1 aid s =
        ⟨s.applications.map (fun x => if (x.id == aid && !x.payment_verified) then
          succeededFields id1 t1 x else x), s.history⟩ := by
      show (updateWhere none t1 (fun x => x.id == aid && !x.payment_verified)
        (succeededFields id1 t1) s).getD s = _
      rw [hup1q]
      rfl
    have hfil1q : (s.applications.map
        (fun x => if (x.id == aid && !x.payment_verified) then
          succeededFields id1 t1 x else x)).filter (fun x => x.id == aid) =
        [succeededFields id1 t1 a] := by
      rw [filter_guarded_update_singleton aid
        (fun x => x.id == aid && !x.payment_verified)
        (succeededFields id1 t1) (fun x => rfl) s.applications a hfil]
      simp [haid, hver]
    have hfilq2 : (s.applications.map
        (fun x => if (x.id == aid && !x.payment_verified) then
          succeededFields id1 t1 x else x)).filter
        (fun x => x.id == aid && !x.payment_verified) = [] := by
      have h := filter_and_eq (fun x : Application => x.id == aid)
        (fun x : Application => !x.payment_verified)
        (s.applications.map (fun x => if (x.id == aid && !x.payment_verified) then
          succeededFields id1 t1 x else x))
      rw [hfil1q] at h
      exact h.trans (by simp [List.filter, succeededFields])
    have hup2q := updateWhere_none_commits_of_filter_nil t2
      (fun x => x.id == aid && !x.payment_verified) (succeededFields id2 t2)
      (⟨s.applications.map (fun x => if (x.id == aid && !x.payment_verified) then
        succeededFields id1 t1 x else x), s.history⟩ : Store) hfilq2
    have happ2q : succeededApplyWhereUnverified id2 t2 aid
        (⟨s.applications.map (fun x => if (x.id == aid && !x.payment_verified) then
          succeededFields id1 t1 x else x), s.history⟩ : Store) =
        ⟨(s.applications.map (fun x => if (x.id == aid && !x.payment_verified) then
            succeededFields id1 t1 x else x)).map
          (fun x => if (x.id == aid && !x.payment_verified) then
            succeededFields id2 t2 x else x), s.history⟩ := by
      show (updateWhere none t2 (fun x => x.id == aid && !x.payment_verified)
        (succeededFields id2 t2)
        (⟨s.applications.map (fun x => if (x.id == aid && !x.payment_verified) then
          succeededFields id1 t1 x else x), s.history⟩ : Store)).getD
        (⟨s.applications.map (fun x => if (x.id == aid && !x.payment_verified) then
          succeededFields id1 t1 x else x), s.history⟩ : Store) = _
      rw [hup2q]
      rfl
    have hfil2q : ((s.applications.map
        (fun x => if (x.id == aid && !x.payment_verified) then
          succeededFields id1 t1 x else x)).map
          (fun x => if (x.id == aid && !x.payment_verified) then
            succeededFields id2 t2 x else x)).filter (fun x => x.id == aid) =
        [succeededFields id1 t1 a] := by
      rw [filter_guarded_update_singleton aid
        (fun x => x.id == aid && !x.payment_verified)
        (succeededFields id2 t2) (fun x => rfl) _ (succeededFields id1 t1 a) hfil1q]
      simp [succeededFields]
    refine ⟨by rw [hrace], by rw [hrace], ?_, ?_⟩
    · rw [hrace, happ1, happ2]
      exact hfil2
    · rw [hraceC, happ1q, happ2q]
      exact hfil2q
  · intro hpr
    have hch1 : statusRowChanged (succeededFields id1 t1) a = true := by
      simp [statusRowChanged, succeededFields, hpr]
    have hup1 := updateWhere_none_aborts t1 (fun x => x.id == aid)
      (succeededFields id1 t1) s a hfil hch1
    have happ1 : succeededApply id1 t1 aid s = s := by
      show (updateWhere none t1 (fun x => x.id == aid)
        (succeededFields id1 t1) s).getD s = s
      rw [hup1]
      rfl
    have hch2 : statusRowChanged (succeededFields id2 t2) a = true := by
      simp [statusRowChanged, succeededFields, hpr]
    have hup2 := updateWhere_none_aborts t2 (fun x => x.id == aid)
      (succeededFields id2 t2) s a hfil hch2
    have happ2 : succeededApply id2 t2 aid s = s := by
      show (updateWhere none t2 (fun x => x.id == aid)
        (succeededFields id2 t2) s).getD s = s
      rw [hup2]
      rfl
    rw [hrace, happ1, happ2]

theorem race_read_then_check_witness :
    (raceTwoDeliveries succeededApply "pi_A" "pi_B" 1 2 1
        ⟨[samplePRUnverified], []⟩).2.1 = true ∧
    (raceTwoDeliveries succeededApply "pi_A" "pi_B" 1 2 1
        ⟨[samplePRUnverified], []⟩).2.2 = true ∧
    (raceTwoDeliveries succeededApply "pi_A" "pi_B" 1 2 1
        ⟨[samplePRUnverified], []⟩).1.applications.filter
      (fun x => x.id == 1) =
      [succeededFields "pi_B" 2 (succeededFields "pi_A" 1 samplePRUnverified)] ∧
    (raceTwoDeliveries succeededApplyWhereUnverified "pi_A" "pi_B" 1 2 1
        ⟨[samplePRUnverified], []⟩).1.applications.filter
      (fun x => x.id == 1) = [succeededFields "pi_A" 1 samplePRUnverified] :=
  (race_read_then_check_amended "pi_A" "pi_B" 1 2 1
    ⟨[samplePRUnverified], []⟩ samplePRUnverified (by rfl) (by rfl)).1 (by rfl)

/-- C4, counterexample: releaseAllDecisions issues one aggregate UPDATE;
when that single statement fails, no ready application is released —
with two applications both ready, the failure leaves both at in_review
and reports one aggregate failure, not per-application outcomes. -/
theorem bulk_release_aggregate_failure_cex :
    decisionReady sampleInReviewAccepted = true ∧
    decisionReady sampleInReviewRejected = true ∧
    (releaseAllDecisions 9 5 false
        ⟨[sampleInReviewAccepted, sampleInReviewRejected], []⟩).1 =
      ⟨[sampleInReviewAccepted, sampleInReviewRejected], []⟩ ∧
    (releaseAllDecisions 9 5 false
        ⟨[sampleInReviewAccepted, sampleInReviewRejected], []⟩).2 = .failedAll :=
  ⟨rfl, rfl, rfl, rfl⟩

/-- C4, amended: bulk release moves every application with
current_status in_review and a recorded decision to decision_released
(stamping the release time and appending one history row per released
application) and leaves all others untouched, but it does so through a
single conditional UPDATE: the statement succeeds or fails as a whole
and is reported as one aggregate outcome (a count on success, a single
failure alert otherwise), not per application. -/
theorem bulk_release_single_update_amended
    (actor : Nat) (t : Nat) (s : Store)
    (hne : s.applications.filter decisionReady ≠ []) :
    (releaseAllDecisions actor t true s).1.applications =
      s.applications.map (fun a => if decisionReady a then
        { a with current_status := "decision_released"
               , decision_released_at := some t } else a) ∧
    (releaseAllDecisions actor t true s).2 =
      .releasedAll (s.applications.filter decisionReady).length ∧
    (releaseAllDecisions actor t true s).1.history.length =
      s.history.length + (s.applications.filter decisionReady).length ∧
    releaseAllDecisions actor t false s = (s, .failedAll) := by
  have hne' : (s.applications.filter decisionReady).isEmpty = false := by
    revert hne
    cases s.applications.filter decisionReady <;> simp
  have hfired : firedRows decisionReady
      (fun a => { a with current_status := "decision_released"
                       , decision_released_at := some t }) s.applications =
      s.applications.filter decisionReady := by
    rw [firedRows_eq]
    apply List.filter_eq_self.mpr
    intro x hx
    have hready : decisionReady x = true := (List.mem_filter.mp hx).2
    have hst : x.current_status = "in_review" := by
      have h := hready
      simp [decisionReady] at h
      exact h.1
    simp [statusRowChanged, hst]
  have hup : updateWhere (some actor) t decisionReady
      (fun a => { a with current_status := "decision_released"
                       , decision_released_at := some t }) s =
      some ⟨s.applications.map (fun a => if decisionReady a then
        { a with current_status := "decision_released"
               , decision_released_at := some t } else a),
        s.history ++ (s.applications.filter decisionReady).map
          (fun a => log_status_change actor t a
            { a with current_status := "decision_released"
                   , decision_released_at := some t })⟩ := by
    simp [updateWhere, hfired]
  have hred : releaseAllDecisions actor t true s =
      (⟨s.applications.map (fun a => if decisionReady a then
        { a with current_status := "decision_released"
               , decision_released_at := some t } else a),
        s.history ++ (s.applications.filter decisionReady).map
          (fun a => log_status_change actor t a
            { a with current_status := "decision_released"
                   , decision_released_at := some t })⟩,
       .releasedAll (s.applications.filter decisionReady).length) := by
    simp [releaseAllDecisions, hne', hup]
  refine ⟨by rw [hred], by rw [hred], ?_, by simp [releaseAllDecisions, hne']⟩
  rw [hred]
  show (s.history ++ (s.applications.filter decisionReady).map _).length = _
  simp [List.length_append]

theorem bulk_release_single_update_witness :
    (releaseAllDecisions 9 5 true
        ⟨[sampleInReviewAccepted, sampleInReviewRejected, sampleSubmitted], []⟩).1.applications =
      [sampleInReviewAccepted, sampleInReviewRejected, sampleSubmitted].map
        (fun a => if decisionReady a then
          { a with current_status := "decision_released"
                 , decision_released_at := some 5 } else a) ∧
    (releaseAllDecisions 9 5 true
        ⟨[sampleInReviewAccepted, sampleInReviewRejected, sampleSubmitted], []⟩).2 =
      .releasedAll ([sampleInReviewAccepted, sampleInReviewRejected,
        sampleSubmitted].filter decisionReady).length ∧
    (releaseAllDecisions 9 5 true
        ⟨[sampleInReviewAccepted, sampleInReviewRejected, sampleSubmitted], []⟩).1.history.length =
      ([] : List HistoryRow).length + ([sampleInReviewAccepted, sampleInReviewRejected,
        sampleSubmitted].filter decisionReady).length ∧
    releaseAllDecisions 9 5 false
        ⟨[sampleInReviewAccepted, sampleInReviewRejected, sampleSubmitted], []⟩ =
      (⟨[sampleInReviewAccepted, sampleInReviewRejected, sampleSubmitted], []⟩, .failedAll) :=
  bulk_release_single_update_amended 9 5
    ⟨[sampleInReviewAccepted, sampleInReviewRejected, sampleSubmitted], []⟩ (by decide)

/-- C6, counterexample: an eligible application stores an intent id
whose live Stripe status is still usable (requires_payment_method), but
its stored stripe_payment_status is failed rather than pending — so the
handler skips the reuse check, creates a new intent and overwrites the
stored reference, contrary to the claim that any referenced still-usable
handle is returned. -/
theorem intent_reuse_requires_pending_cex :
    sampleEnvUsable.retrieveStatus "pi_old" = some "requires_payment_method" ∧
    usableIntentStatus "requires_payment_method" = true ∧
    (createPaymentIntent 2 (some 1) sampleEnvUsable 3
        ⟨[sampleFailedStored], []⟩).2 = .clientSecret "sec_new" false ∧
    (createPaymentIntent 2 (some 1) sampleEnvUsable 3
        ⟨[sampleFailedStored], []⟩).1.applications.map
      (fun x => x.stripe_payment_intent_id) = [some "pi_new"] :=
  ⟨rfl, rfl, rfl, rfl⟩

/-- C6, amended: on an eligible (submitted, unverified, owned) request,
the existing intent is reused — same store, its client secret returned,
no new intent — exactly when the stored intent id is present, the STORED
stripe_payment_status is pending, and the retrieved live status is still
usable; in every other case (including a stored status other than
pending, a terminal or canceled live status, or a failed retrieve) a new
intent is created and its id overwrites the stored reference. -/
theorem intent_reuse_amended
    (uid aid t : Nat) (env : StripeEnv) (s : Store) (a : Application)
    (hfil : s.applications.filter (fun x => x.id == aid) = [a])
    (huser : a.user_id = uid)
    (hsub : a.current_status = "submitted")
    (hver : a.payment_verified = false) :
    (∀ sec, reuseSecret env a = some sec →
      createPaymentIntent uid (some aid) env t s = (s, .clientSecret sec true) ∧
      a.stripe_payment_status = some "pending") ∧
    (reuseSecret env a = none →
      (createPaymentIntent uid (some aid) env t s).2 =
        .clientSecret env.newIntentSecret false ∧
      (createPaymentIntent uid (some aid) env t s).1.applications.filter
          (fun x => x.id == aid) =
        [{ a with stripe_payment_intent_id := some env.newIntentId
                , stripe_payment_status := some "pending" }]) := by
  have ha : (fun x : Application => x.id == aid) a = true :=
    pred_of_filter_eq_singleton _ a s.applications hfil
  have haid : a.id = aid := by simpa using ha
  have hfind : s.applications.find? (fun x => x.id == aid && x.user_id == uid) = some a :=
    find?_eq_of_filter_eq_singleton (fun x => x.id == aid)
      (fun x => x.id == aid && x.user_id == uid) a
      (fun x hx => by
        have := (Bool.and_eq_true _ _).mp hx
        exact this.1)
      (by simp [haid, huser]) s.applications hfil
  constructor
  · intro sec hsec
    have hred : createPaymentIntent uid (some aid) env t s =
        (s, .clientSecret sec true) := by
      simp [createPaymentIntent, hfind, hsub, hver, hsec]
    refine ⟨hred, ?_⟩
    cases hid : a.stripe_payment_intent_id with
    | none => simp [reuseSecret, hid] at hsec
    | some pid =>
      by_cases hp : a.stripe_payment_status == some "pending"
      · simpa using hp
      · simp [reuseSecret, hid, hp] at hsec
  · intro hnone
    have hup := updateWhere_commits_of_no_change none t (fun x => x.id == aid)
      (fun x => { x with stripe_payment_intent_id := some env.newIntentId
                       , stripe_payment_status := some "pending" }) s (fun x => rfl)
    have hred : createPaymentIntent uid (some aid) env t s =
        (⟨s.applications.map (fun x => if (x.id == aid) then
          { x with stripe_payment_intent_id := some env.newIntentId
                 , stripe_payment_status := some "pending" } else x), s.history⟩,
         .clientSecret env.newIntentSecret false) := by
      simp [createPaymentIntent, hfind, hsub, hver, hnone, hup]
    refine ⟨by rw [hred], ?_⟩
    rw [hred]
    show (s.applications.map (fun x => if (x.id == aid) then
      { x with stripe_payment_intent_id := some env.newIntentId
             , stripe_payment_status := some "pending" } else x)).filter
      (fun x => x.id == aid) = _
    rw [filter_guarded_update_singleton aid (fun x => x.id == aid)
      (fun x => { x with stripe_payment_intent_id := some env.newIntentId
                       , stripe_payment_status := some "pending" })
      (fun x => rfl) s.applications a hfil]
    simp [haid]

theorem intent_reuse_witness :
    (createPaymentIntent 2 (some 1) sampleEnvUsable 3
        ⟨[samplePendingStored], []⟩) =
      (⟨[samplePendingStored], []⟩, .clientSecret "sec_old" true) ∧
    samplePendingStored.stripe_payment_status = some "pending" :=
  (intent_reuse_amended 2 1 3 sampleEnvUsable
      ⟨[samplePendingStored], []⟩ samplePendingStored
      (by rfl) (by rfl) (by rfl) (by rfl)).1 "sec_old" (by rfl)

/-- A committed guarded UPDATE whose rewriter keeps ids and never
clears payment_verified preserves the verified-row invariant. -/
theorem verifiedIn_updateWhere (actor : Option Nat) (t : Nat)
    (p : Application → Bool) (f : Application → Application) (s : Store)
    (aid : Nat) (s1 : Store)
    (hup : updateWhere actor t p f s = some s1)
    (hid : ∀ x, (f x).id = x.id)
    (hpv : ∀ x, x.payment_verified = true → (f x).payment_verified = true)
    (h : verifiedIn s aid = true) :
    verifiedIn s1 aid = true := by
  have happ : s1.applications =
      s.applications.map (fun x => if p x then f x else x) := by
    cases actor with
    | some uid =>
      simp [updateWhere] at hup
      rw [← hup]
    | none =>
      by_cases he : (firedRows p f s.applications).isEmpty
      · simp [updateWhere, he] at hup
        rw [← hup]
      · simp [updateWhere, he] at hup
  rw [verifiedIn, happ, List.all_map, List.all_eq_true]
  intro x hx
  have hx' : (!(x.id == aid) || x.payment_verified) = true := by
    rw [verifiedIn, List.all_eq_true] at h
    exact h x hx
  by_cases hp : p x
  · simp only [Function.comp, hp, if_true]
    cases hxi : (x.id == aid) with
    | false =>
      have hfid : ((f x).id == aid) = false := by
        rw [hid x]
        exact hxi
      simp [hfid]
    | true =>
      have hxv : x.payment_verified = true := by
        rw [hxi] at hx'
        simpa using hx'
      simp [hpv x hxv]
  · simpa [Function.comp, hp] using hx'

/-- Each payment-path operation preserves the verified-row invariant:
its store effect is either the untouched store (a 4xx/5xx path or an
aborted update) or a committed update that never clears
payment_verified. -/
theorem verifiedIn_applyOp (op : PaymentPathOp) (s : Store) (aid : Nat)
    (h : verifiedIn s aid = true) :
    verifiedIn (applyPaymentPathOp op s) aid = true := by
  cases op with
  | wSucceeded pid appId t =>
    cases appId with
    | none => exact h
    | some i =>
      cases hf : findApp s i with
      | none =>
        simpa [applyPaymentPathOp, stripeWebhookSucceeded, hf] using h
      | some app =>
        by_cases hv : app.payment_verified
        · simpa [applyPaymentPathOp, stripeWebhookSucceeded, hf, hv] using h
        · cases hup : updateWhere none t (fun a => a.id == i)
              (succeededFields pid t) s with
          | none =>
            simpa [applyPaymentPathOp, stripeWebhookSucceeded, hf, hv, hup] using h
          | some s1 =>
            have hred : applyPaymentPathOp (.wSucceeded pid (some i) t) s = s1 := by
              simp [applyPaymentPathOp, stripeWebhookSucceeded, hf, hv, hup]
            rw [hred]
            exact verifiedIn_updateWhere none t _ _ s aid s1 hup (fun x => rfl)
              (fun x _ => rfl) h
  | wFailed appId t =>
    cases appId with
    | none => exact h
    | some i =>
      cases hf : findApp s i with
      | none =>
        simpa [applyPaymentPathOp, stripeWebhookFailed, hf] using h
      | some app =>
        cases hup : updateWhere none t (fun a => a.id == i)
            (fun a => { a with stripe_payment_status := some "failed" }) s with
        | none =>
          simpa [applyPaymentPathOp, stripeWebhookFailed, hf, hup] using h
        | some s1 =>
          have hred : applyPaymentPathOp (.wFailed (some i) t) s = s1 := by
            simp [applyPaymentPathOp, stripeWebhookFailed, hf, hup]
          rw [hred]
          exact verifiedIn_updateWhere none t _ _ s aid s1 hup (fun x => rfl)
            (fun x hx => hx) h
  | intent uid appId env t =>
    cases appId with
    | none => exact h
    | some i =>
      cases hf : s.applications.find? (fun a => a.id == i && a.user_id == uid) with
      | none =>
        simpa [applyPaymentPathOp, createPaymentIntent, hf] using h
      | some app =>
        by_cases hs : (app.current_status != "submitted") = true
        · simpa [applyPaymentPathOp, createPaymentIntent, hf, hs] using h
        · by_cases hv : app.payment_verified
          · simpa [applyPaymentPathOp, createPaymentIntent, hf, hs, hv] using h
          · cases hr : reuseSecret env app with
            | some sec =>
              simpa [applyPaymentPathOp, createPaymentIntent, hf, hs, hv, hr] using h
            | none =>
              cases hup : updateWhere none t (fun a => a.id == i)
                  (fun a => { a with
                      stripe_payment_intent_id := some env.newIntentId
                    , stripe_payment_status := some "pending" }) s with
              | none =>
                simpa [applyPaymentPathOp, createPaymentIntent,
                  hf, hs, hv, hr, hup] using h
              | some s1 =>
                have hred : applyPaymentPathOp (.intent uid (some i) env t) s = s1 := by
                  simp [applyPaymentPathOp, createPaymentIntent, hf, hs, hv, hr, hup]
                rw [hred]
                exact verifiedIn_updateWhere none t _ _ s aid s1 hup (fun x => rfl)
                  (fun x hx => hx) h

/-- C7: payment_verified is monotonic along the payment path — once an
application's payment_verified is true, no sequence of webhook-success,
webhook-failure or create-payment-intent operations ever resets it. -/
theorem payment_verified_monotonic
    (ops : List PaymentPathOp) (s : Store) (aid : Nat)
    (h : verifiedIn s aid = true) :
    verifiedIn (runPaymentPath ops s) aid = true := by
  induction ops generalizing s with
  | nil => exact h
  | cons op rest ih => exact ih (applyPaymentPathOp op s) (verifiedIn_applyOp op s aid h)

theorem payment_verified_monotonic_witness :
    verifiedIn ⟨[sampleVerified], []⟩ 1 = true ∧
    verifiedIn (runPaymentPath samplePathOps ⟨[sampleVerified], []⟩) 1 = true :=
  ⟨by decide,
   payment_verified_monotonic samplePathOps ⟨[sampleVerified], []⟩ 1 (by decide)⟩

/-- C8: a committed UPDATE of the application with a given id — run by
an authenticated caller, whose non-null auth.uid() the trigger records
— appends, through log_status_change, exactly one history row
(recording the old status, the new status, the acting identity and the
timestamp) when the update changes current_status, and none when it
leaves it unchanged; the history table itself carries only SELECT
policies, so no client command can mutate or delete audit rows. -/
theorem status_history_trigger_audit
    (actor : Nat) (t aid : Nat) (f : Application → Application)
    (s : Store) (a : Application)
    (hfil : s.applications.filter (fun x => x.id == aid) = [a]) :
    Option.map (fun s1 => s1.history)
        (updateWhere (some actor) t (fun x => x.id == aid) f s) =
      some (s.history ++ (if a.current_status = (f a).current_status then []
        else [{ application_id := (f a).id
              , old_status := some a.current_status
              , new_status := (f a).current_status
              , changed_by := actor, changed_at := t }])) ∧
    ∀ p ∈ statusHistoryPolicies, p.cmd = "SELECT" := by
  constructor
  · show some (s.history ++ (firedRows (fun x => x.id == aid) f
      s.applications).map (fun x => log_status_change actor t x (f x))) = _
    rw [firedRows_of_filter_singleton (fun x => x.id == aid) f
      s.applications a hfil]
    by_cases h : a.current_status = (f a).current_status
    · have hch : statusRowChanged f a = false := by
        simp [statusRowChanged, h]
      simp [hch, h]
    · have hch : statusRowChanged f a = true := by
        simp [statusRowChanged, h]
      simp [hch, h, log_status_change]
  · decide

theorem status_history_trigger_audit_witness :
    Option.map (fun s1 => s1.history)
        (updateWhere (some 9) 5 (fun x => x.id == 1)
          (fun x => { x with current_status := "in_review" })
          ⟨[sampleSubmitted], []⟩) =
      some ([] ++ (if sampleSubmitted.current_status =
          ((fun x : Application => { x with current_status := "in_review" })
            sampleSubmitted).current_status then []
        else [{ application_id := ((fun x : Application =>
                { x with current_status := "in_review" }) sampleSubmitted).id
              , old_status := some sampleSubmitted.current_status
              , new_status := ((fun x : Application =>
                { x with current_status := "in_review" }) sampleSubmitted).current_status
              , changed_by := 9, changed_at := 5 }])) ∧
    ∀ p ∈ statusHistoryPolicies, p.cmd = "SELECT" :=
  status_history_trigger_audit 9 5 1
    (fun x => { x with current_status := "in_review" })
    ⟨[sampleSubmitted], []⟩ sampleSubmitted (by rfl)

/-- C9, counterexample: after submission the owner can still change a
plain form field — the effective policy set (the schema's draft policy
plus the Stripe migration's broad submitted policy; the security
migration's frozen-column policy references OLD/NEW in WITH CHECK,
which PostgreSQL rejects, so it never takes effect) admits an update of
a submitted application that changes the GPA, and even one that sets
payment_verified itself, contradicting the claim that only
payment-related fields may change while everything else stays
unchanged. -/
theorem submitted_update_no_column_freeze_cex :
    sampleSubmitted.current_status = "submitted" ∧
    applicantUpdateAllowed 2 sampleSubmitted
      { sampleSubmitted with gpa := some "4.0" } = true ∧
    ({ sampleSubmitted with gpa := some "4.0" } : Application).gpa ≠
      sampleSubmitted.gpa ∧
    applicantUpdateAllowed 2 sampleSubmitted
      { sampleSubmitted with payment_verified := true } = true := by
  refine ⟨rfl, rfl, by decide, rfl⟩

/-- C9, amended: while a draft, the owner may rewrite the row freely;
after submission the owner may STILL rewrite every column — the only
conditions the effective policies impose are that the existing row and
the new row are each owned by the applicant and carry status draft or
submitted.  No column freeze exists: form fields, financial-aid
fields, decision, payment_verified and current_status (between draft
and submitted) all remain mutable by the owner after submission,
because the security migration's frozen-column policy is invalid
PostgreSQL (OLD/NEW inside a policy WITH CHECK) and never replaced the
broad submitted-update policy. -/
theorem applicant_update_policy_amended (uid : Nat) (o n : Application) :
    (o.user_id = uid →
      (o.current_status = "draft" ∨ o.current_status = "submitted") →
      n.user_id = uid →
      (n.current_status = "draft" ∨ n.current_status = "submitted") →
      applicantUpdateAllowed uid o n = true) ∧
    (applicantUpdateAllowed uid o n = true →
      o.user_id = uid ∧
      (o.current_status = "draft" ∨ o.current_status = "submitted") ∧
      n.user_id = uid ∧
      (n.current_status = "draft" ∨ n.current_status = "submitted")) := by
  constructor
  · intro ho hos hn hns
    rw [applicantUpdateAllowed, Bool.and_eq_true]
    constructor
    · rw [Bool.or_eq_true_iff]
      rcases hos with h | h
      · left
        simp [draftUpdateUsing, ho, h]
      · right
        simp [submittedUpdateUsing, ho, h]
    · rw [Bool.or_eq_true_iff]
      rcases hns with h | h
      · left
        simp [draftUpdateUsing, hn, h]
      · right
        simp [submittedUpdateUsing, hn, h]
  · intro hall
    obtain ⟨ho, hn⟩ := (Bool.and_eq_true _ _).mp hall
    have hocase : o.user_id = uid ∧
        (o.current_status = "draft" ∨ o.current_status = "submitted") := by
      rcases Bool.or_eq_true_iff.mp ho with h | h
      · obtain ⟨h1, h2⟩ := (Bool.and_eq_true _ _).mp h
        have h1' : uid = o.user_id := by simpa using h1
        have h2' : o.current_status = "draft" := by simpa using h2
        exact ⟨h1'.symm, Or.inl h2'⟩
      · obtain ⟨h1, h2⟩ := (Bool.and_eq_true _ _).mp h
        have h1' : uid = o.user_id := by simpa using h1
        have h2' : o.current_status = "submitted" := by simpa using h2
        exact ⟨h1'.symm, Or.inr h2'⟩
    have hncase : n.user_id = uid ∧
        (n.current_status = "draft" ∨ n.current_status = "submitted") := by
      rcases Bool.or_eq_true_iff.mp hn with h | h
      · obtain ⟨h1, h2⟩ := (Bool.and_eq_true _ _).mp h
        have h1' : uid = n.user_id := by simpa using h1
        have h2' : n.current_status = "draft" := by simpa using h2
        exact ⟨h1'.symm, Or.inl h2'⟩
      · obtain ⟨h1, h2⟩ := (Bool.and_eq_true _ _).mp h
        have h1' : uid = n.user_id := by simpa using h1
        have h2' : n.current_status = "submitted" := by simpa using h2
        exact ⟨h1'.symm, Or.inr h2'⟩
    exact ⟨hocase.1, hocase.2, hncase.1, hncase.2⟩

theorem applicant_update_policy_witness :
    applicantUpdateAllowed 2 sampleSubmitted
      { sampleSubmitted with gpa := some "4.0" } = true ∧
    (sampleDraft.user_id = 2 ∧
      (sampleDraft.current_status = "draft" ∨
        sampleDraft.current_status = "submitted") ∧
      sampleDraft.user_id = 2 ∧
      (sampleDraft.current_status = "draft" ∨
        sampleDraft.current_status = "submitted")) :=
  ⟨(applicant_update_policy_amended 2 sampleSubmitted
      { sampleSubmitted with gpa := some "4.0" }).1 rfl (Or.inr rfl) rfl (Or.inr rfl),
   (applicant_update_policy_amended 2 sampleDraft sampleDraft).2 (by decide)⟩

end Portal
